import Mathlib

/-!
Shallow embedding of `mymodule_heisenberg.py` and `qc_workbook/runtime_vqe.py`.

Angles in the circuit are rational linear combinations of the floating-point
constant `np.pi`; the development is therefore parameterized by a rational
value `pi` standing for that constant, and no theorem below depends on its
numeric value.  Floating-point arithmetic is modelled exactly over `ℚ`.
-/

namespace QcWorkbook

/-- Quantum gates appended by the source: `cx`, `rz`, `h` and `p`
(the only circuit methods called in `mymodule_heisenberg.py`). -/
inductive Gate where
  | cx (control target : ℕ)
  | rz (angle : ℚ) (qubit : ℕ)
  | h (qubit : ℕ)
  | p (angle : ℚ) (qubit : ℕ)
  deriving DecidableEq

/-- Error raised by qiskit `QuantumCircuit` gate methods on invalid qubit
arguments. -/
structure CircuitError where
  msg : String
  deriving DecidableEq

/-- A quantum circuit: the register size, the circuit name, and the list of
appended operations in order. -/
structure Circuit where
  numQubits : ℕ
  name : String
  ops : List Gate
  deriving DecidableEq

/-- The argument validation performed by qiskit gate methods: a gate whose
qubit arguments coincide (for two-qubit gates) raises
`CircuitError("duplicate qubit arguments")`, and a qubit index outside the
register raises an out-of-range `CircuitError`. -/
def checkGate (n : ℕ) : Gate → Except CircuitError Unit
  | Gate.cx c t =>
      if c = t then Except.error ⟨"duplicate qubit arguments"⟩
      else if c < n ∧ t < n then Except.ok () else Except.error ⟨"qubit index out of range"⟩
  | Gate.rz _ q => if q < n then Except.ok () else Except.error ⟨"qubit index out of range"⟩
  | Gate.h q => if q < n then Except.ok () else Except.error ⟨"qubit index out of range"⟩
  | Gate.p _ q => if q < n then Except.ok () else Except.error ⟨"qubit index out of range"⟩

/-- Appending gate operations to a circuit one after the other, failing at
the first gate whose arguments are invalid — the semantics of a sequence of
`circuit.cx`/`circuit.rz`/`circuit.h`/`circuit.p` calls. -/
def buildOpsGo (n : ℕ) (acc : List Gate) : List Gate → Except CircuitError (List Gate)
  | [] => Except.ok acc
  | gop :: rest =>
      match checkGate n gop with
      | Except.ok _ => buildOpsGo n (acc ++ [gop]) rest
      | Except.error e => Except.error e

/-- Appending a list of gate operations to an initially empty circuit. -/
def buildOps (n : ℕ) (gates : List Gate) : Except CircuitError (List Gate) :=
  buildOpsGo n [] gates

/-- The loop body of `trotter_twopi_heisenberg` at loop index `j`
(source lines 43-76): the ZZ coupling, the XX coupling, the YY coupling,
and — when `g != 0.` — the external-field rotation `rz(-2*g*phase, j)`. -/
def trotterBodyOps (n_spins : ℕ) (g phase pi : ℚ) (j : ℕ) : List Gate :=
  [Gate.cx j ((j + 1) % n_spins),
   Gate.rz (-2 * phase) ((j + 1) % n_spins),
   Gate.cx j ((j + 1) % n_spins),
   Gate.h j,
   Gate.h ((j + 1) % n_spins),
   Gate.cx j ((j + 1) % n_spins),
   Gate.rz (-2 * phase) ((j + 1) % n_spins),
   Gate.cx j ((j + 1) % n_spins),
   Gate.h j,
   Gate.h ((j + 1) % n_spins),
   Gate.p (-pi / 2) j,
   Gate.p (-pi / 2) ((j + 1) % n_spins),
   Gate.h j,
   Gate.h ((j + 1) % n_spins),
   Gate.cx j ((j + 1) % n_spins),
   Gate.rz (-2 * phase) ((j + 1) % n_spins),
   Gate.cx j ((j + 1) % n_spins),
   Gate.h j,
   Gate.h ((j + 1) % n_spins),
   Gate.p (pi / 2) j,
   Gate.p (pi / 2) ((j + 1) % n_spins)]
  ++ (if g ≠ 0 then [Gate.rz (-2 * g * phase) j] else [])

/-- The gate sequence emitted by the editable region of
`trotter_twopi_heisenberg` (source lines 40-76): `phase = -energy_norm *
step_size` with `step_size = 2*pi/num_steps`, then the loop
`for j in range(n_spins)` emitting `trotterBodyOps` at each index. -/
def trotterStepOps (n_spins : ℕ) (energy_norm g : ℚ) (num_steps : ℕ) (pi : ℚ) : List Gate :=
  let step_size := 2 * pi / (num_steps : ℚ)
  let phase := -energy_norm * step_size
  (List.range n_spins).foldl (fun acc j => acc ++ trotterBodyOps n_spins g phase pi j) []

/-- `QuantumCircuit.repeat(reps)`: the circuit whose operations are `reps`
consecutive copies of the original operations, named `<name>**<reps>`. -/
def repeatCircuit (c : Circuit) (reps : ℕ) : Circuit :=
  { numQubits := c.numQubits, name := c.name ++ "**" ++ toString reps,
    ops := (List.replicate reps c.ops).flatten }

/-- The single Trotter-step circuit: `QuantumCircuit(state_register,
name='ΔU')` followed by the gate emission of the editable region
(source lines 29-76). -/
def stepCircuit (n_spins : ℕ) (energy_norm g : ℚ) (num_steps : ℕ) (pi : ℚ) :
    Except CircuitError Circuit :=
  (buildOps n_spins (trotterStepOps n_spins energy_norm g num_steps pi)).map fun ops =>
    { numQubits := n_spins, name := "ΔU", ops := ops }

/-- `trotter_twopi_heisenberg` (source lines 29-85): build the single-step
circuit, then `circuit = circuit.repeat(num_steps)` and `circuit.name = 'U'`
(source lines 82-83). -/
def trotter_twopi_heisenberg (n_spins : ℕ) (energy_norm g : ℚ) (num_steps : ℕ)
    (pi : ℚ) : Except CircuitError Circuit :=
  (stepCircuit n_spins energy_norm g num_steps pi).map fun circuit =>
    { repeatCircuit circuit num_steps with name := "U" }

/-- The ZZ coupling block of the spec claim: `cx`, `rz(-2*phase)`, `cx` on
the pair `(j, jp)`. -/
def zzBlock (j jp : ℕ) (phase : ℚ) : List Gate :=
  [Gate.cx j jp, Gate.rz (-2 * phase) jp, Gate.cx j jp]

/-- The XX coupling block of the spec claim: Hadamards around a ZZ block. -/
def xxBlock (j jp : ℕ) (phase : ℚ) : List Gate :=
  [Gate.h j, Gate.h jp, Gate.cx j jp, Gate.rz (-2 * phase) jp, Gate.cx j jp,
   Gate.h j, Gate.h jp]

/-- The YY coupling block of the spec claim: phase gates and Hadamards
around a ZZ block. -/
def yyBlock (j jp : ℕ) (phase pi : ℚ) : List Gate :=
  [Gate.p (-pi / 2) j, Gate.p (-pi / 2) jp, Gate.h j, Gate.h jp,
   Gate.cx j jp, Gate.rz (-2 * phase) jp, Gate.cx j jp,
   Gate.h j, Gate.h jp, Gate.p (pi / 2) j, Gate.p (pi / 2) jp]

/-- The external-field rotation of the spec claim, emitted exactly when
`g != 0`. -/
def fieldRot (j : ℕ) (g phase : ℚ) : List Gate :=
  if g ≠ 0 then [Gate.rz (-2 * g * phase) j] else []

lemma foldl_append_eq_flatMap {α β : Type} (f : α → List β) :
    ∀ (l : List α) (acc : List β),
      l.foldl (fun a x => a ++ f x) acc = acc ++ l.flatMap f := by
  intro l
  induction l with
  | nil => intro acc; simp
  | cons x xs ih => intro acc; simp [ih, List.append_assoc]

lemma trotterStepOps_eq_flatMap (n_spins : ℕ) (energy_norm g : ℚ) (num_steps : ℕ)
    (pi : ℚ) :
    trotterStepOps n_spins energy_norm g num_steps pi =
      (List.range n_spins).flatMap
        (trotterBodyOps n_spins g (-energy_norm * (2 * pi / (num_steps : ℚ))) pi) := by
  simp [trotterStepOps, foldl_append_eq_flatMap]

lemma buildOpsGo_ok_of_all (n : ℕ) :
    ∀ (gates acc : List Gate),
      (∀ gop ∈ gates, checkGate n gop = Except.ok ()) →
      buildOpsGo n acc gates = Except.ok (acc ++ gates) := by
  intro gates
  induction gates with
  | nil => intro acc _; simp [buildOpsGo]
  | cons gop rest ih =>
      intro acc hall
      have h1 : checkGate n gop = Except.ok () := hall gop (by simp)
      rw [buildOpsGo, h1]
      rw [ih (acc ++ [gop]) (fun x hx => hall x (by simp [hx]))]
      simp

lemma buildOpsGo_eq_of_ok (n : ℕ) :
    ∀ (gates acc out : List Gate),
      buildOpsGo n acc gates = Except.ok out → out = acc ++ gates := by
  intro gates
  induction gates with
  | nil => intro acc out h; simp [buildOpsGo] at h; simp [h.symm]
  | cons gop rest ih =>
      intro acc out h
      rw [buildOpsGo] at h
      cases hc : checkGate n gop with
      | ok u => rw [hc] at h; have := ih (acc ++ [gop]) out h; simp [this]
      | error e => rw [hc] at h; cases h

lemma succ_mod_lt (n j : ℕ) (hn : 1 ≤ n) : (j + 1) % n < n :=
  Nat.mod_lt _ (by omega)

lemma succ_mod_ne (n j : ℕ) (hn : 2 ≤ n) (hj : j < n) : (j + 1) % n ≠ j := by
  rcases Nat.lt_or_ge (j + 1) n with h | h
  · rw [Nat.mod_eq_of_lt h]; omega
  · have hjn : j + 1 = n := by omega
    rw [hjn, Nat.mod_self]; omega

lemma checkGate_trotterBody (n : ℕ) (hn : 2 ≤ n) (g phase pi : ℚ) (j : ℕ)
    (hj : j < n) :
    ∀ gop ∈ trotterBodyOps n g phase pi j, checkGate n gop = Except.ok () := by
  have hlt : (j + 1) % n < n := succ_mod_lt n j (by omega)
  have hne : (j + 1) % n ≠ j := succ_mod_ne n j hn hj
  have hne2 : j ≠ (j + 1) % n := fun h => hne h.symm
  intro gop hg
  rw [trotterBodyOps] at hg
  rcases List.mem_append.mp hg with h | h
  · fin_cases h <;> simp [checkGate, hj, hlt, hne2]
  · by_cases hgz : g = 0
    · simp [hgz] at h
    · rw [if_pos hgz] at h
      simp at h
      subst h
      simp [checkGate, hj]

lemma trotterStepOps_all_ok (n : ℕ) (hn : 2 ≤ n) (energy_norm g : ℚ)
    (num_steps : ℕ) (pi : ℚ) :
    ∀ gop ∈ trotterStepOps n energy_norm g num_steps pi,
      checkGate n gop = Except.ok () := by
  intro gop hg
  rw [trotterStepOps_eq_flatMap] at hg
  obtain ⟨j, hjmem, hgb⟩ := List.mem_flatMap.mp hg
  exact checkGate_trotterBody n hn g _ pi j (List.mem_range.mp hjmem) gop hgb

lemma trotter_ok (n : ℕ) (hn : 2 ≤ n) (energy_norm g : ℚ) (num_steps : ℕ)
    (pi : ℚ) :
    trotter_twopi_heisenberg n energy_norm g num_steps pi =
      Except.ok
        { numQubits := n, name := "U",
          ops := (List.replicate num_steps
                    (trotterStepOps n energy_norm g num_steps pi)).flatten } := by
  have hb : buildOps n (trotterStepOps n energy_norm g num_steps pi) =
      Except.ok (trotterStepOps n energy_norm g num_steps pi) := by
    rw [buildOps, buildOpsGo_ok_of_all n _ [] (trotterStepOps_all_ok n hn _ _ _ _)]
    simp
  simp [trotter_twopi_heisenberg, stepCircuit, hb, Except.map, repeatCircuit]

lemma trotterBodyOps_length (n : ℕ) (g phase pi : ℚ) (j : ℕ) :
    (trotterBodyOps n g phase pi j).length = 21 + if g = 0 then 0 else 1 := by
  by_cases hg : g = 0 <;> simp [trotterBodyOps, hg]

lemma flatMap_trotterBody_length (n : ℕ) (g phase pi : ℚ) :
    ∀ l : List ℕ,
      (l.flatMap (trotterBodyOps n g phase pi)).length =
        l.length * (21 + if g = 0 then 0 else 1) := by
  intro l
  induction l with
  | nil => simp
  | cons j rest ih =>
      rw [List.flatMap_cons, List.length_append, ih, trotterBodyOps_length]
      simp [Nat.succ_mul]
      ring

lemma trotterStepOps_length (n : ℕ) (energy_norm g : ℚ) (num_steps : ℕ) (pi : ℚ) :
    (trotterStepOps n energy_norm g num_steps pi).length =
      n * (21 + if g = 0 then 0 else 1) := by
  rw [trotterStepOps_eq_flatMap, flatMap_trotterBody_length]
  simp

lemma trotter_one_error (energy_norm g : ℚ) (num_steps : ℕ) (pi : ℚ) :
    trotter_twopi_heisenberg 1 energy_norm g num_steps pi =
      Except.error ⟨"duplicate qubit arguments"⟩ := by
  simp [trotter_twopi_heisenberg, stepCircuit, buildOps, trotterStepOps_eq_flatMap,
    List.range_succ, trotterBodyOps, buildOpsGo, checkGate, Except.map]

/-- C1: for every state register of `n` spins and every `energy_norm`, `g`,
`num_steps`, the single Trotter-step gate sequence emitted by
`trotter_twopi_heisenberg` consists, for each `j` in `0..n-1` acting on the
nearest-neighbor pair `(j, (j+1) mod n)`, of the ZZ coupling block, the XX
coupling block, the YY coupling block with angles built from
`phase = -energy_norm * (2*pi/num_steps)`, and the external-field rotation
`rz(-2*g*phase, j)` exactly when `g != 0`. -/
theorem trotter_step_gate_sequence (n_spins : ℕ) (energy_norm g : ℚ)
    (num_steps : ℕ) (pi : ℚ) :
    trotterStepOps n_spins energy_norm g num_steps pi =
      (List.range n_spins).flatMap (fun j =>
        let phase := -energy_norm * (2 * pi / (num_steps : ℚ))
        zzBlock j ((j + 1) % n_spins) phase ++
        xxBlock j ((j + 1) % n_spins) phase ++
        yyBlock j ((j + 1) % n_spins) phase pi ++
        fieldRot j g phase) := by
  rw [trotterStepOps_eq_flatMap]
  refine congrArg _ (funext fun j => ?_)
  simp [trotterBodyOps, zzBlock, xxBlock, yyBlock, fieldRot]

/-- C2: whenever the single-step circuit `ΔU` is built, the circuit returned
by `trotter_twopi_heisenberg` is exactly that circuit repeated `num_steps`
times (`circuit.repeat(num_steps)`), with its name set to `U`. -/
theorem trotter_returns_repeated_step (n_spins : ℕ) (energy_norm g : ℚ)
    (num_steps : ℕ) (pi : ℚ) (sc : Circuit)
    (h : stepCircuit n_spins energy_norm g num_steps pi = Except.ok sc) :
    trotter_twopi_heisenberg n_spins energy_norm g num_steps pi =
      Except.ok { repeatCircuit sc num_steps with name := "U" } ∧
    (repeatCircuit sc num_steps).ops = (List.replicate num_steps sc.ops).flatten := by
  constructor
  · simp [trotter_twopi_heisenberg, h, Except.map]
  · simp [repeatCircuit]

/-- Witness for C2 at a concrete input. -/
theorem trotter_returns_repeated_step_witness :
    trotter_twopi_heisenberg 0 0 0 2 0 =
      Except.ok { repeatCircuit { numQubits := 0, name := "ΔU", ops := [] } 2
                    with name := "U" } ∧
    (repeatCircuit { numQubits := 0, name := "ΔU", ops := [] } 2).ops =
      (List.replicate 2 ([] : List Gate)).flatten :=
  trotter_returns_repeated_step 0 0 0 2 0 { numQubits := 0, name := "ΔU", ops := [] } rfl

/-- C5 counterexample: the editable region of `trotter_twopi_heisenberg`
does contribute operations to the returned circuit — at a two-spin register
with `energy_norm = g = 1`, one step, the returned circuit has 44
operations. -/
theorem trotter_contributes_ops_counterexample :
    (trotter_twopi_heisenberg 2 1 1 1 3).map (fun c => c.ops.length) =
      Except.ok 44 ∧ (44 : ℕ) ≠ 0 := by
  constructor
  · rw [trotter_ok 2 (by norm_num) 1 1 1 3]
    simp [Except.map, trotterStepOps_length]
  · norm_num

/-- C5 (amended): the retry wrapper in `energy_expval` and the
optimizer-driving loop in `main` are the only finished control structures in
`runtime_vqe.py` and both call into missing bodies, but the editable region
of `trotter_twopi_heisenberg` does contain a finished gate-emission
implementation: for every register of at least one spin it emits
`21` operations per spin (`22` when `g != 0`), a nonempty sequence. -/
theorem trotter_editable_region_emits (n_spins : ℕ) (energy_norm g : ℚ)
    (num_steps : ℕ) (pi : ℚ) (hn : 1 ≤ n_spins) :
    (trotterStepOps n_spins energy_norm g num_steps pi).length =
      n_spins * (21 + if g = 0 then 0 else 1) ∧
    trotterStepOps n_spins energy_norm g num_steps pi ≠ [] := by
  refine ⟨trotterStepOps_length n_spins energy_norm g num_steps pi, ?_⟩
  have hlen : 0 < (trotterStepOps n_spins energy_norm g num_steps pi).length := by
    rw [trotterStepOps_length]
    have : 0 < 21 + if g = 0 then 0 else 1 := by split <;> norm_num
    exact Nat.mul_pos (by omega) this
  exact List.ne_nil_of_length_pos hlen

/-- Witness for the amended C5 at a concrete input. -/
theorem trotter_editable_region_emits_witness :
    (trotterStepOps 2 1 1 1 3).length = 44 ∧ trotterStepOps 2 1 1 1 3 ≠ [] := by
  have h := trotter_editable_region_emits 2 1 1 1 3 (by norm_num)
  simpa using h

/-- C9: for a single-spin register the neighbor index `(j+1) mod 1` equals
`j` itself, so `trotter_twopi_heisenberg` attempts a `cx` whose control and
target coincide and fails with the duplicate-qubit `CircuitError` instead of
returning a circuit; among registers of at least one spin, it succeeds
exactly when the register has at least two spins. -/
theorem trotter_single_spin_register_fails (energy_norm g : ℚ) (num_steps : ℕ)
    (pi : ℚ) (n_spins : ℕ) (hn : 1 ≤ n_spins) :
    (0 + 1) % 1 = 0 ∧
    trotter_twopi_heisenberg 1 energy_norm g num_steps pi =
      Except.error ⟨"duplicate qubit arguments"⟩ ∧
    ((∃ c, trotter_twopi_heisenberg n_spins energy_norm g num_steps pi =
        Except.ok c) ↔ 2 ≤ n_spins) := by
  refine ⟨rfl, trotter_one_error energy_norm g num_steps pi, ?_, ?_⟩
  · rintro ⟨c, hc⟩
    by_contra h2
    have hone : n_spins = 1 := by omega
    rw [hone, trotter_one_error] at hc
    cases hc
  · intro h2
    exact ⟨_, trotter_ok n_spins h2 energy_norm g num_steps pi⟩

/-- Witness for C9 at a concrete input. -/
theorem trotter_single_spin_register_fails_witness :
    (0 + 1) % 1 = 0 ∧
    trotter_twopi_heisenberg 1 1 1 1 3 =
      Except.error ⟨"duplicate qubit arguments"⟩ ∧
    ((∃ c, trotter_twopi_heisenberg 2 1 1 1 3 = Except.ok c) ↔ 2 ≤ 2) :=
  trotter_single_spin_register_fails 1 1 1 3 2 (by norm_num)

/-! Embedding of `qc_workbook/runtime_vqe.py`.  The bodies of the editable
regions are parameters of the embedding: the try-block of `energy_expval` is
a function from the attempt index to either a raised `JobError` or the value
left in `energy`, and the editable region of `objective_function` is a
function from the parameter values and the current value of `energy` to the
new value of `energy`.  The regions as supplied (no statements) are
`placeholderAttempt` and `placeholderRegion` below. -/

/-- `qiskit.providers.JobError`, identified by its message. -/
abbrev JobError := String

/-- `NUM_RETRIES = 5` (source line 10). -/
def NUM_RETRIES : ℕ := 5

/-- The retry loop of `energy_expval` (source lines 33-52): on attempt
`itry`, `energy` is reset to `0.` and the try-block runs; on success the
loop breaks, on `JobError` the error is re-raised when
`itry == NUM_RETRIES - 1` and swallowed otherwise.  `fuel` is the number of
loop iterations remaining in `range(NUM_RETRIES)`. -/
def energy_expvalGo (body : ℕ → Except JobError ℚ) (itry : ℕ) :
    ℕ → Except JobError ℚ
  | 0 => Except.ok 0
  | fuel + 1 =>
      match body itry with
      | Except.ok energy => Except.ok energy
      | Except.error ex =>
          if itry = NUM_RETRIES - 1 then Except.error ex
          else energy_expvalGo body (itry + 1) fuel

/-- `energy_expval` (source lines 12-54): run the retry loop from attempt 0
and return the value of `energy`. -/
def energy_expval (body : ℕ → Except JobError ℚ) : Except JobError ℚ :=
  energy_expvalGo body 0 NUM_RETRIES

/-- The number of times the retry loop of `energy_expval` runs its
try-block. -/
def energy_expvalAttemptsGo (body : ℕ → Except JobError ℚ) (itry : ℕ) : ℕ → ℕ
  | 0 => 0
  | fuel + 1 =>
      match body itry with
      | Except.ok _ => 1
      | Except.error _ =>
          if itry = NUM_RETRIES - 1 then 1
          else 1 + energy_expvalAttemptsGo body (itry + 1) fuel

/-- The number of attempts `energy_expval` makes on a given body. -/
def energy_expvalAttempts (body : ℕ → Except JobError ℚ) : ℕ :=
  energy_expvalAttemptsGo body 0 NUM_RETRIES

/-- The try-block of `energy_expval` as supplied (source lines 37-45): the
editable region contains no statements, so no `JobError` is raised and
`energy` keeps the value `0.` assigned at line 34.  (As supplied the empty
try-suite is in fact a Python syntax error; it is modelled as the no-op it
stands for.) -/
def placeholderAttempt : ℕ → Except JobError ℚ := fun _ => Except.ok 0

/-- Values stored in the dictionaries exchanged by `runtime_vqe.py`:
parameter vectors, energies, and call counts. -/
inductive RtVal where
  | params (values : List ℚ)
  | num (value : ℚ)
  | nat (value : ℕ)
  deriving DecidableEq

/-- The dictionary `{'params': ..., 'energy': ..., 'num_calls': ...}` built
both as the interim payload published by `objective_function` (source line
110) and as the final result of `main` (source line 127), as an ordered
association list. -/
def resultDict (param_values : List ℚ) (energy : ℚ) (num_calls : ℕ) :
    List (String × RtVal) :=
  [("params", RtVal.params param_values), ("energy", RtVal.num energy),
   ("num_calls", RtVal.nat num_calls)]

/-- The mutable context of `main`: the `num_calls` counter (source line 90)
and the list of payloads published through `user_messenger`. -/
structure VqeState where
  num_calls : ℕ
  published : List (List (String × RtVal))
  deriving DecidableEq

/-- `objective_function` (source lines 93-112): set `energy = 0.`, run the
editable region, increment `num_calls`, publish an interim payload when
`report_every > 0 and num_calls % report_every == 0`, and return
`energy`. -/
def objective_function (region : List ℚ → ℚ → ℚ) (report_every : ℤ)
    (param_values : List ℚ) (s : VqeState) : ℚ × VqeState :=
  let energy : ℚ := 0
  let energy := region param_values energy
  let num_calls := s.num_calls + 1
  let published :=
    if 0 < report_every ∧ (num_calls : ℤ) % report_every = 0 then
      s.published ++ [resultDict param_values energy num_calls]
    else s.published
  (energy, { num_calls := num_calls, published := published })

/-- The editable region of `objective_function` as supplied (source lines
98-106): it contains no statements, so `energy` keeps the value `0.`
assigned at line 96. -/
def placeholderRegion : List ℚ → ℚ → ℚ := fun _ energy => energy

/-- An abstract classical optimizer: `query` chooses the next evaluation
point from the initial point and the objective values observed so far (or
`none` to stop), `retx` chooses the returned point `ret.x`, and `fuel`
bounds the number of objective evaluations.  This models a COBYLA instance
from the external `qiskit.algorithms.optimizers` package, which interacts
with the objective only by calling it. -/
structure Optimizer where
  query : List ℚ → List ℚ → Option (List ℚ)
  retx : List ℚ → List ℚ → List ℚ
  fuel : ℕ

/-- The evaluation loop of `optimizer.minimize`: repeatedly query the
objective, threading the enclosing state; returns `ret.x`, the list of
observed objective values, and the final state. -/
def minimizeGo (opt : Optimizer) (f : List ℚ → VqeState → ℚ × VqeState)
    (x0 : List ℚ) (vals : List ℚ) (s : VqeState) :
    ℕ → List ℚ × List ℚ × VqeState
  | 0 => (opt.retx x0 vals, vals, s)
  | fuel + 1 =>
      match opt.query x0 vals with
      | none => (opt.retx x0 vals, vals, s)
      | some p =>
          let r := f p s
          minimizeGo opt f x0 (vals ++ [r.1]) r.2 fuel

/-- `optimizer.minimize(objective_function, initial)` (source line 122). -/
def Optimizer.minimize (opt : Optimizer) (f : List ℚ → VqeState → ℚ × VqeState)
    (x0 : List ℚ) (s : VqeState) : List ℚ × List ℚ × VqeState :=
  minimizeGo opt f x0 [] s opt.fuel

/-- The initial parameter values (source lines 118-119): the given array, or
`np.full(ansatz.num_parameters, 0.01)` when `initial is None`. -/
def initialParams (num_parameters : ℕ) : Option (List ℚ) → List ℚ
  | none => List.replicate num_parameters (1 / 100 : ℚ)
  | some xs => xs

/-- The minimization performed by `main` (source lines 114-122): construct
`COBYLA(maxiter=maxiter, tol=tol)` and call `optimizer.minimize` on the
internal objective function starting from the initial parameter vector,
with `num_calls = 0` and nothing published yet. -/
def mainMinimize (cobyla : ℕ → Option ℚ → Optimizer)
    (region : List ℚ → ℚ → ℚ) (num_parameters : ℕ) (initial : Option (List ℚ))
    (maxiter : ℕ) (tol : Option ℚ) (report_every : ℤ) :
    List ℚ × List ℚ × VqeState :=
  (cobyla maxiter tol).minimize (objective_function region report_every)
    (initialParams num_parameters initial) { num_calls := 0, published := [] }

/-- `main` (source lines 57-127): minimize, call `objective_function` once
more at `ret.x` (source line 125), and return the result dictionary; the
final `VqeState` is returned alongside so that the published payloads remain
observable. -/
def main (cobyla : ℕ → Option ℚ → Optimizer) (region : List ℚ → ℚ → ℚ)
    (num_parameters : ℕ) (initial : Option (List ℚ)) (maxiter : ℕ)
    (tol : Option ℚ) (report_every : ℤ) :
    List (String × RtVal) × VqeState :=
  let m := mainMinimize cobyla region num_parameters initial maxiter tol report_every
  let fin := objective_function region report_every m.1 m.2.2
  (resultDict m.1 fin.1 fin.2.num_calls, fin.2)

/-- A concrete optimizer behavior used in witnesses: one probe at `[-5]`,
returned point `[3]`. -/
def optW : Optimizer :=
  { query := fun _ vals => if vals.length = 0 then some [-5] else none,
    retx := fun _ _ => [3],
    fuel := 2 }

/-- A concrete COBYLA family used in witnesses. -/
def cobylaW : ℕ → Option ℚ → Optimizer := fun _ _ => optW

/-- A concrete objective-body region used in witnesses: the energy is the
first parameter value. -/
def regionW : List ℚ → ℚ → ℚ := fun p energy => p.headD energy

/-- A concrete try-block body used in witnesses: two failing attempts, then
success. -/
def bodyW : ℕ → Except JobError ℚ :=
  fun i => if i < 2 then Except.error "boom" else Except.ok (7 / 2)

/-- C3: `energy_expval` attempts its body at most `NUM_RETRIES = 5` times;
the first attempt that does not raise terminates the loop immediately with
its computed energy, a `JobError` on one of the first four attempts causes a
retry, and a `JobError` on the fifth attempt is re-raised, so the call
raises `JobError` if and only if all five attempts raise. -/
theorem energy_expval_retry_semantics (body : ℕ → Except JobError ℚ) :
    (∀ k e, k < NUM_RETRIES →
        (∀ i, i < k → ∃ ex, body i = Except.error ex) →
        body k = Except.ok e →
        energy_expval body = Except.ok e ∧ energy_expvalAttempts body = k + 1) ∧
    ((∃ ex, energy_expval body = Except.error ex) ↔
        (∀ i, i < NUM_RETRIES → ∃ ex, body i = Except.error ex)) ∧
    ((∀ i, i < NUM_RETRIES → ∃ ex, body i = Except.error ex) →
        energy_expval body = body (NUM_RETRIES - 1) ∧
        energy_expvalAttempts body = NUM_RETRIES) := by
  refine ⟨?_, ⟨?_, ?_⟩, ?_⟩
  · intro k e hk hprev hok
    have hk5 : k < 5 := hk
    interval_cases k
    · constructor <;>
        simp [energy_expval, energy_expvalAttempts, NUM_RETRIES, energy_expvalGo,
          energy_expvalAttemptsGo, hok]
    · obtain ⟨e0, h0⟩ := hprev 0 (by norm_num)
      constructor <;>
        simp [energy_expval, energy_expvalAttempts, NUM_RETRIES, energy_expvalGo,
          energy_expvalAttemptsGo, h0, hok]
    · obtain ⟨e0, h0⟩ := hprev 0 (by norm_num)
      obtain ⟨e1, h1⟩ := hprev 1 (by norm_num)
      constructor <;>
        simp [energy_expval, energy_expvalAttempts, NUM_RETRIES, energy_expvalGo,
          energy_expvalAttemptsGo, h0, h1, hok]
    · obtain ⟨e0, h0⟩ := hprev 0 (by norm_num)
      obtain ⟨e1, h1⟩ := hprev 1 (by norm_num)
      obtain ⟨e2, h2⟩ := hprev 2 (by norm_num)
      constructor <;>
        simp [energy_expval, energy_expvalAttempts, NUM_RETRIES, energy_expvalGo,
          energy_expvalAttemptsGo, h0, h1, h2, hok]
    · obtain ⟨e0, h0⟩ := hprev 0 (by norm_num)
      obtain ⟨e1, h1⟩ := hprev 1 (by norm_num)
      obtain ⟨e2, h2⟩ := hprev 2 (by norm_num)
      obtain ⟨e3, h3⟩ := hprev 3 (by norm_num)
      constructor <;>
        simp [energy_expval, energy_expvalAttempts, NUM_RETRIES, energy_expvalGo,
          energy_expvalAttemptsGo, h0, h1, h2, h3, hok]
  · rintro ⟨ex, hex⟩ i hi
    have hi5 : i < 5 := hi
    cases h0 : body 0 with
    | ok v => simp [energy_expval, NUM_RETRIES, energy_expvalGo, h0] at hex
    | error e0 =>
      cases h1 : body 1 with
      | ok v => simp [energy_expval, NUM_RETRIES, energy_expvalGo, h0, h1] at hex
      | error e1 =>
        cases h2 : body 2 with
        | ok v => simp [energy_expval, NUM_RETRIES, energy_expvalGo, h0, h1, h2] at hex
        | error e2 =>
          cases h3 : body 3 with
          | ok v =>
            simp [energy_expval, NUM_RETRIES, energy_expvalGo, h0, h1, h2, h3] at hex
          | error e3 =>
            cases h4 : body 4 with
            | ok v =>
              simp [energy_expval, NUM_RETRIES, energy_expvalGo, h0, h1, h2, h3,
                h4] at hex
            | error e4 =>
              interval_cases i
              · exact ⟨e0, h0⟩
              · exact ⟨e1, h1⟩
              · exact ⟨e2, h2⟩
              · exact ⟨e3, h3⟩
              · exact ⟨e4, h4⟩
  · intro hall
    obtain ⟨e0, h0⟩ := hall 0 (by norm_num [NUM_RETRIES])
    obtain ⟨e1, h1⟩ := hall 1 (by norm_num [NUM_RETRIES])
    obtain ⟨e2, h2⟩ := hall 2 (by norm_num [NUM_RETRIES])
    obtain ⟨e3, h3⟩ := hall 3 (by norm_num [NUM_RETRIES])
    obtain ⟨e4, h4⟩ := hall 4 (by norm_num [NUM_RETRIES])
    exact ⟨e4, by simp [energy_expval, NUM_RETRIES, energy_expvalGo, h0, h1, h2,
      h3, h4]⟩
  · intro hall
    obtain ⟨e0, h0⟩ := hall 0 (by norm_num [NUM_RETRIES])
    obtain ⟨e1, h1⟩ := hall 1 (by norm_num [NUM_RETRIES])
    obtain ⟨e2, h2⟩ := hall 2 (by norm_num [NUM_RETRIES])
    obtain ⟨e3, h3⟩ := hall 3 (by norm_num [NUM_RETRIES])
    obtain ⟨e4, h4⟩ := hall 4 (by norm_num [NUM_RETRIES])
    constructor
    · simp [energy_expval, NUM_RETRIES, energy_expvalGo, h0, h1, h2, h3, h4]
    · simp [energy_expvalAttempts, NUM_RETRIES, energy_expvalAttemptsGo, h0, h1,
        h2, h3, h4]

/-- Witness for C3 at a concrete body: two failures then success on the
third attempt. -/
theorem energy_expval_retry_semantics_witness :
    energy_expval bodyW = Except.ok (7 / 2) ∧ energy_expvalAttempts bodyW = 2 + 1 :=
  (energy_expval_retry_semantics bodyW).1 2 (7 / 2) (by decide)
    (fun i hi => ⟨"boom", by interval_cases i <;> rfl⟩) rfl

/-- C8: each call to the objective function increments `num_calls` by
exactly one; a payload is published exactly when `report_every > 0` and the
incremented counter is divisible by `report_every` (in particular never when
`report_every <= 0`), and the payload holds exactly the keys `params`,
`energy` and `num_calls`. -/
theorem objective_function_call_semantics (region : List ℚ → ℚ → ℚ)
    (report_every : ℤ) (p : List ℚ) (s : VqeState) :
    ((objective_function region report_every p s).2.num_calls = s.num_calls + 1) ∧
    ((objective_function region report_every p s).2.published =
        s.published ++
          (if 0 < report_every ∧ ((s.num_calls + 1 : ℕ) : ℤ) % report_every = 0 then
            [resultDict p (objective_function region report_every p s).1
              (s.num_calls + 1)]
          else [])) ∧
    (report_every ≤ 0 →
        (objective_function region report_every p s).2.published = s.published) ∧
    ((resultDict p (objective_function region report_every p s).1
        (s.num_calls + 1)).map Prod.fst = ["params", "energy", "num_calls"]) := by
  have hpub : (objective_function region report_every p s).2.published =
      (if 0 < report_every ∧ ((s.num_calls + 1 : ℕ) : ℤ) % report_every = 0 then
        s.published ++
          [resultDict p (objective_function region report_every p s).1
            (s.num_calls + 1)]
      else s.published) := rfl
  have key : ∀ (c : Prop) [Decidable c] (l : List (List (String × RtVal)))
      (x : List (String × RtVal)),
      (if c then l ++ [x] else l) = l ++ (if c then [x] else []) := by
    intro c _ l x
    split <;> simp
  refine ⟨rfl, ?_, ?_, rfl⟩
  · rw [hpub, key]
  · intro hre
    have hc : ¬(0 < report_every ∧ ((s.num_calls + 1 : ℕ) : ℤ) % report_every = 0) := by
      rintro ⟨h1, _⟩; omega
    rw [hpub, if_neg hc]

/-- Witness for C8 at a concrete call that publishes. -/
theorem objective_function_call_semantics_witness :
    ((objective_function placeholderRegion 1 [2] ⟨0, []⟩).2.num_calls = 0 + 1) ∧
    ((objective_function placeholderRegion 1 [2] ⟨0, []⟩).2.published =
        [] ++
          (if (0 : ℤ) < 1 ∧ ((0 + 1 : ℕ) : ℤ) % 1 = 0 then
            [resultDict [2] (objective_function placeholderRegion 1 [2] ⟨0, []⟩).1
              (0 + 1)]
          else [])) ∧
    ((1 : ℤ) ≤ 0 →
        (objective_function placeholderRegion 1 [2] ⟨0, []⟩).2.published = []) ∧
    ((resultDict [2] (objective_function placeholderRegion 1 [2] ⟨0, []⟩).1
        (0 + 1)).map Prod.fst = ["params", "energy", "num_calls"]) :=
  objective_function_call_semantics placeholderRegion 1 [2] ⟨0, []⟩

/-- C4: `main` returns the dictionary with exactly the keys `params`,
`energy` and `num_calls`, holding the point returned by
`COBYLA(maxiter, tol).minimize` on the internal objective from the initial
vector, the objective value at that point, and the number of objective
calls made. -/
theorem main_returns_optimizer_result (cobyla : ℕ → Option ℚ → Optimizer)
    (region : List ℚ → ℚ → ℚ) (num_parameters : ℕ) (initial : Option (List ℚ))
    (maxiter : ℕ) (tol : Option ℚ) (report_every : ℤ) :
    ((main cobyla region num_parameters initial maxiter tol report_every).1.map
        Prod.fst = ["params", "energy", "num_calls"]) ∧
    ((main cobyla region num_parameters initial maxiter tol
        report_every).1.lookup "params" =
      some (RtVal.params
        (mainMinimize cobyla region num_parameters initial maxiter tol
          report_every).1)) ∧
    ((main cobyla region num_parameters initial maxiter tol
        report_every).1.lookup "energy" =
      some (RtVal.num
        (objective_function region report_every
          (mainMinimize cobyla region num_parameters initial maxiter tol
            report_every).1
          (mainMinimize cobyla region num_parameters initial maxiter tol
            report_every).2.2).1)) ∧
    ((main cobyla region num_parameters initial maxiter tol
        report_every).1.lookup "num_calls" =
      some (RtVal.nat
        (objective_function region report_every
          (mainMinimize cobyla region num_parameters initial maxiter tol
            report_every).1
          (mainMinimize cobyla region num_parameters initial maxiter tol
            report_every).2.2).2.num_calls)) :=
  ⟨rfl, rfl, rfl, rfl⟩

/-- Witness for C4 at a concrete optimizer and objective body. -/
theorem main_returns_optimizer_result_witness :
    ((main cobylaW regionW 2 none 100 none 10).1.map Prod.fst =
        ["params", "energy", "num_calls"]) ∧
    ((main cobylaW regionW 2 none 100 none 10).1.lookup "params" =
        some (RtVal.params [3])) ∧
    ((main cobylaW regionW 2 none 100 none 10).1.lookup "energy" =
        some (RtVal.num 3)) ∧
    ((main cobylaW regionW 2 none 100 none 10).1.lookup "num_calls" =
        some (RtVal.nat 2)) :=
  main_returns_optimizer_result cobylaW regionW 2 none 100 none 10

lemma minimizeGo_num_calls (opt : Optimizer) (region : List ℚ → ℚ → ℚ)
    (report_every : ℤ) (x0 : List ℚ) :
    ∀ (fuel : ℕ) (vals : List ℚ) (s : VqeState),
      (minimizeGo opt (objective_function region report_every) x0 vals s
          fuel).2.2.num_calls + vals.length =
        s.num_calls +
          (minimizeGo opt (objective_function region report_every) x0 vals s
            fuel).2.1.length := by
  intro fuel
  induction fuel with
  | zero => intro vals s; simp [minimizeGo]
  | succ m ih =>
      intro vals s
      rw [minimizeGo]
      cases hq : opt.query x0 vals with
      | none => simp
      | some p =>
          simp only []
          have hn : (objective_function region report_every p s).2.num_calls =
              s.num_calls + 1 := rfl
          have hrec := ih (vals ++ [(objective_function region report_every p s).1])
            (objective_function region report_every p s).2
          simp only [List.length_append, List.length_singleton] at hrec
          omega

/-- C7: after `optimizer.minimize` returns, `main` calls the objective one
more time at `ret.x`: the `num_calls` entry equals the number of objective
evaluations during minimization plus one, and the `energy` entry is the
value of this final re-evaluation — which, as the concrete instance shows,
need not be the smallest value observed during minimization. -/
theorem main_extra_objective_call (cobyla : ℕ → Option ℚ → Optimizer)
    (region : List ℚ → ℚ → ℚ) (num_parameters : ℕ) (initial : Option (List ℚ))
    (maxiter : ℕ) (tol : Option ℚ) (report_every : ℤ) :
    ((main cobyla region num_parameters initial maxiter tol
        report_every).1.lookup "num_calls" =
      some (RtVal.nat
        ((mainMinimize cobyla region num_parameters initial maxiter tol
          report_every).2.1.length + 1))) ∧
    ((main cobyla region num_parameters initial maxiter tol
        report_every).1.lookup "energy" =
      some (RtVal.num
        (objective_function region report_every
          (mainMinimize cobyla region num_parameters initial maxiter tol
            report_every).1
          (mainMinimize cobyla region num_parameters initial maxiter tol
            report_every).2.2).1)) ∧
    ((main cobylaW regionW 2 none 100 none 10).1.lookup "energy" =
        some (RtVal.num 3) ∧
      (mainMinimize cobylaW regionW 2 none 100 none 10).2.1 = [-5] ∧
      (-5 : ℚ) < 3) := by
  refine ⟨?_, rfl, rfl, rfl, by norm_num⟩
  have hinv := minimizeGo_num_calls (cobyla maxiter tol) region report_every
    (initialParams num_parameters initial) (cobyla maxiter tol).fuel []
    { num_calls := 0, published := [] }
  simp only [List.length_nil, Nat.add_zero, Nat.zero_add] at hinv
  have hlook : (main cobyla region num_parameters initial maxiter tol
      report_every).1.lookup "num_calls" =
      some (RtVal.nat
        ((mainMinimize cobyla region num_parameters initial maxiter tol
          report_every).2.2.num_calls + 1)) := rfl
  rw [hlook]
  have hinv2 : (mainMinimize cobyla region num_parameters initial maxiter tol
      report_every).2.2.num_calls =
      (mainMinimize cobyla region num_parameters initial maxiter tol
        report_every).2.1.length := hinv
  rw [hinv2]

/-- Witness for C7 at a concrete optimizer and objective body. -/
theorem main_extra_objective_call_witness :
    ((main cobylaW regionW 2 none 100 none 10).1.lookup "num_calls" =
        some (RtVal.nat 2)) ∧
    ((main cobylaW regionW 2 none 100 none 10).1.lookup "energy" =
        some (RtVal.num 3)) ∧
    ((main cobylaW regionW 2 none 100 none 10).1.lookup "energy" =
        some (RtVal.num 3) ∧
      (mainMinimize cobylaW regionW 2 none 100 none 10).2.1 = [-5] ∧
      (-5 : ℚ) < 3) :=
  main_extra_objective_call cobylaW regionW 2 none 100 none 10

/-- C6: with the editable regions as supplied (no statements), `energy` is
never reassigned after its initialization to `0.`: the objective function
returns `0` on every input, `energy_expval` returns `0` on its first
attempt without any retry, and the `energy` entry of the dictionary
returned by `main` is `0` regardless of the optimizer, initial point or
settings. -/
theorem placeholder_bodies_yield_zero :
    (∀ (report_every : ℤ) (p : List ℚ) (s : VqeState),
        (objective_function placeholderRegion report_every p s).1 = 0) ∧
    energy_expval placeholderAttempt = Except.ok 0 ∧
    energy_expvalAttempts placeholderAttempt = 1 ∧
    (∀ (cobyla : ℕ → Option ℚ → Optimizer) (num_parameters : ℕ)
        (initial : Option (List ℚ)) (maxiter : ℕ) (tol : Option ℚ)
        (report_every : ℤ),
        (main cobyla placeholderRegion num_parameters initial maxiter tol
            report_every).1.lookup "energy" = some (RtVal.num 0)) :=
  ⟨fun _ _ _ => rfl, rfl, rfl, fun _ _ _ _ _ _ => rfl⟩

end QcWorkbook
